import Mathlib

/-!
Verification of the SBOM dependency scanner.

Shallow embedding of the scanning and parsing core from
src/sbom/scanner.py and src/sbom/models.py.

Modelling conventions:
* JSON values produced by Python's json.load are modelled by the inductive
  Json; Json.null plays the role of Python None.  Python dicts are
  modelled as association lists of fields (a dict produced by json.load
  has unique keys).  Numeric JSON values are modelled as integers, which
  covers every value the claims quantify over; floats and Python's
  True == 1 numeric cross-equality are outside the model (no claim needs
  them, every claim about lockfileVersion restricts itself to integers).
* Python sets of records are modelled as Finset DependencyRecord.
* Python exceptions are modelled as error values: the builtin exceptions a
  parser can raise become constructors of ParseError (named after the
  spec's error taxonomy where it gives a name), and the scanner's own
  ScanningError subclasses become the extra constructors of ScanError.
* File reading always succeeds in the model; the content of each manifest
  file is part of the repository input (RepoInput).  The provenance
  subprocess _get_git_commit is an external tool invocation, modelled by
  an oracle field gitCommit carrying the value it returns (none for the
  three failure cases: tool missing, not a repository, failing exit
  status).
* String operations are implemented on character lists (pyStrip,
  splitLines, splitFirst, afterLastNodeModules) so that they reduce in
  the kernel; they model the Python string methods the scanner uses
  (str.strip over ASCII whitespace, str.split with and without a maxsplit
  of 1, substring membership).
-/

set_option autoImplicit false

namespace Sbom

/-- A JSON value as loaded by Python's json.load; null doubles as the
model of Python None.  Objects are association lists of fields. -/
inductive Json where
  | null : Json
  | bool : Bool → Json
  | int : Int → Json
  | str : String → Json
  | obj : List (String × Json) → Json

mutual

/-- Decidable equality for Json, by simultaneous structural recursion with
its lists of object fields (the derive handler does not support this
nested inductive). -/
def Json.decEq : (a b : Json) → Decidable (a = b)
  | .null, .null => isTrue rfl
  | .bool x, .bool y =>
      if h : x = y then isTrue (congrArg Json.bool h)
      else isFalse (fun hh => h (Json.bool.inj hh))
  | .int x, .int y =>
      if h : x = y then isTrue (congrArg Json.int h)
      else isFalse (fun hh => h (Json.int.inj hh))
  | .str x, .str y =>
      if h : x = y then isTrue (congrArg Json.str h)
      else isFalse (fun hh => h (Json.str.inj hh))
  | .obj xs, .obj ys =>
      match Json.decEqFields xs ys with
      | isTrue h => isTrue (congrArg Json.obj h)
      | isFalse h => isFalse (fun hh => h (Json.obj.inj hh))
  | .null, .bool _ => isFalse (fun h => Json.noConfusion h)
  | .null, .int _ => isFalse (fun h => Json.noConfusion h)
  | .null, .str _ => isFalse (fun h => Json.noConfusion h)
  | .null, .obj _ => isFalse (fun h => Json.noConfusion h)
  | .bool _, .null => isFalse (fun h => Json.noConfusion h)
  | .bool _, .int _ => isFalse (fun h => Json.noConfusion h)
  | .bool _, .str _ => isFalse (fun h => Json.noConfusion h)
  | .bool _, .obj _ => isFalse (fun h => Json.noConfusion h)
  | .int _, .null => isFalse (fun h => Json.noConfusion h)
  | .int _, .bool _ => isFalse (fun h => Json.noConfusion h)
  | .int _, .str _ => isFalse (fun h => Json.noConfusion h)
  | .int _, .obj _ => isFalse (fun h => Json.noConfusion h)
  | .str _, .null => isFalse (fun h => Json.noConfusion h)
  | .str _, .bool _ => isFalse (fun h => Json.noConfusion h)
  | .str _, .int _ => isFalse (fun h => Json.noConfusion h)
  | .str _, .obj _ => isFalse (fun h => Json.noConfusion h)
  | .obj _, .null => isFalse (fun h => Json.noConfusion h)
  | .obj _, .bool _ => isFalse (fun h => Json.noConfusion h)
  | .obj _, .int _ => isFalse (fun h => Json.noConfusion h)
  | .obj _, .str _ => isFalse (fun h => Json.noConfusion h)

/-- Decidable equality for lists of Json object fields. -/
def Json.decEqFields : (xs ys : List (String × Json)) → Decidable (xs = ys)
  | [], [] => isTrue rfl
  | [], _ :: _ => isFalse (fun h => List.noConfusion h)
  | _ :: _, [] => isFalse (fun h => List.noConfusion h)
  | (k, v) :: xs, (l, w) :: ys =>
      if h1 : k = l then
        match Json.decEq v w with
        | isFalse h => isFalse (fun hh => by
            injection hh with ha hb
            exact h (congrArg Prod.snd ha))
        | isTrue h2 =>
          match Json.decEqFields xs ys with
          | isFalse h => isFalse (fun hh => by
              injection hh with ha hb
              exact h hb)
          | isTrue h3 => isTrue (by rw [h1, h2, h3])
      else isFalse (fun hh => by
        injection hh with ha hb
        exact h1 (congrArg Prod.fst ha))

end

instance : DecidableEq Json := Json.decEq

/-- Decidable equality for Except results (kernel-reducible, so concrete
parser outcomes can be settled by decide). -/
instance {ε α : Type} [DecidableEq ε] [DecidableEq α] : DecidableEq (Except ε α) := fun
  | .error a, .error b =>
      if h : a = b then .isTrue (congrArg Except.error h)
      else .isFalse (fun hh => h (by injection hh))
  | .ok a, .ok b =>
      if h : a = b then .isTrue (congrArg Except.ok h)
      else .isFalse (fun hh => h (by injection hh))
  | .error _, .ok _ => .isFalse (fun hh => Except.noConfusion hh)
  | .ok _, .error _ => .isFalse (fun hh => Except.noConfusion hh)

/-- Characters Python str.strip removes from both ends; for the
characters occurring in manifest files this agrees with str.strip. -/
def trimChars (s : List Char) : List Char :=
  ((s.dropWhile Char.isWhitespace).reverse.dropWhile Char.isWhitespace).reverse

/-- Python s.strip(): surrounding whitespace removed from both ends
(implemented on the character list so that it reduces in the kernel). -/
def pyStrip (s : String) : String :=
  String.mk (trimChars s.data)

/-- Splitting a character list at every newline, the model of iterating a
Python text file line by line (the strip applied to each line afterwards
makes the dropped newline characters irrelevant). -/
def splitLinesChars : List Char → List (List Char)
  | [] => [[]]
  | c :: rest =>
    if c = '\n' then [] :: splitLinesChars rest
    else
      match splitLinesChars rest with
      | [] => [[c]]
      | l :: ls => (c :: l) :: ls

/-- The lines of a file content string. -/
def splitLines (content : String) : List String :=
  (splitLinesChars content.data).map String.mk

/-- Python d.get(k) / d[k] on a dict modelled as an association list:
the value of the field named k, if any. -/
def getKey (fields : List (String × Json)) (k : String) : Option Json :=
  (fields.find? (fun p => p.1 = k)).map Prod.snd

/-- The fields of a JSON object, or none when the value is not an object
(in Python, calling .items() or .get on it would raise AttributeError, and
subscripting it would raise TypeError or KeyError). -/
def asObj : Json → Option (List (String × Json))
  | .obj fields => some fields
  | _ => none

/-- Embedding of models.DependencyRecord: frozen dataclass with equality
and hashing over all fields.  The version and dev fields store the raw
value the Python code puts there, hence Json (Json.null models Python
None); name, type and path are always strings and git_commit is always a
string or None. -/
structure DependencyRecord where
  name : String
  version : Json
  type : String
  path : String
  dev : Json
  git_commit : Option String
deriving DecidableEq

/-- Uncaught exceptions a manifest parser can raise, named after the
spec's error taxonomy where it gives a name:
* unsupportedLockfileVersion — Python NotImplementedError (lockfile v1/v2);
* unrecognizedLockfileVersion — Python ValueError (lockfile version outside 1..3);
* malformedManifest — Python KeyError/AttributeError from a package.json
  without a usable dependencies/devDependencies map;
* keyError — Python KeyError on a missing lockfileVersion/packages field;
* attributeError — Python AttributeError from .get on a non-dict lockfile entry;
* typeError — Python TypeError (subscripting a non-dict manifest, or
  set.update(None) in _scan_repo). -/
inductive ParseError where
  | unsupportedLockfileVersion : ParseError
  | unrecognizedLockfileVersion : ParseError
  | malformedManifest : ParseError
  | keyError : ParseError
  | attributeError : ParseError
  | typeError : ParseError
deriving DecidableEq

/-- Errors that can escape DependencyScanner.scan: an uncaught parser
exception bubbling up, or one of the scanner's own ScanningError
subclasses. -/
inductive ScanError where
  | parseFailure : ParseError → ScanError
  | noRepositoriesFound : ScanError
  | noDependenciesFound : ScanError
deriving DecidableEq

/-- The tuple of recognized version operators from
_parse_python_dependencies, in the order the code scans them. -/
def operators : List String := ["==", ">=", "<=", "!=", "~=", ">", "<"]

/-- Split a character list at the first (leftmost) occurrence of the
pattern, returning the parts before and after it, or none when the
pattern does not occur.  This is Python s.split(pat, 1) when it finds an
occurrence, and pat in s is modelled by the result being some. -/
def splitFirstChars (pat : List Char) : List Char → Option (List Char × List Char)
  | [] => if pat.isPrefixOf ([] : List Char) then some ([], []) else none
  | c :: rest =>
    if pat.isPrefixOf (c :: rest) then some ([], (c :: rest).drop pat.length)
    else (splitFirstChars pat rest).map (fun p => (c :: p.1, p.2))

/-- String version of splitFirstChars: Python s.split(pat, 1) into the
text before and after the first occurrence of pat. -/
def splitFirst (s pat : String) : Option (String × String) :=
  (splitFirstChars pat.data s.data).map (fun p => (String.mk p.1, String.mk p.2))

/-- Comment stripping from _parse_python_dependencies:
line.split("#", 1)[0].strip() — the text before the first '#' (regardless
of any preceding backslash), trimmed of surrounding whitespace. -/
def stripLine (rawLine : String) : String :=
  pyStrip (String.mk (rawLine.data.takeWhile (fun c => c ≠ '#')))

/-- A Python requirements record as _parse_python_dependencies builds it:
type "pip", dev defaulting to False, no git commit yet. -/
def pipRecord (reqPath name : String) (version : Json) : DependencyRecord :=
  { name := name, version := version, type := "pip", path := reqPath,
    dev := .bool false, git_commit := none }

/-- The operator loop of _parse_python_dependencies: try each operator in
order; on the first one occurring in the line, split the line at that
operator's first occurrence. -/
def findOperator : List String → String → Option (String × String × String)
  | [], _ => none
  | op :: rest, line =>
    match splitFirst line op with
    | some (before, after) => some (op, before, after)
    | none => findOperator rest line

/-- The per-line body of the loop in _parse_python_dependencies, applied
to a line that has already been comment-stripped and trimmed: skip the
line if empty; otherwise name defaults to the whole line with no version,
and the first occurring operator (scanned in the fixed order) splits the
line into a trimmed name and version = operator + remainder. -/
def parseStrippedLine (reqPath line : String) : Option DependencyRecord :=
  if line = "" then none
  else
    match findOperator operators line with
    | some (op, before, after) =>
        some (pipRecord reqPath (pyStrip before) (.str (op ++ after)))
    | none => some (pipRecord reqPath line .null)

/-- One iteration of the line loop of _parse_python_dependencies:
comment-strip and trim the raw line, then parse what remains. -/
def parseRequirementLine (reqPath rawLine : String) : Option DependencyRecord :=
  parseStrippedLine reqPath (stripLine rawLine)

/-- DependencyScanner._parse_python_dependencies on the lines of a
requirements.txt file: the set of records of its non-empty
comment-stripped lines. -/
def parsePythonDependencies (reqPath : String) (lines : List String) :
    Finset DependencyRecord :=
  (lines.filterMap (parseRequirementLine reqPath)).toFinset

/-- parsePythonDependencies on a whole file content; iterating a Python
file yields its newline-separated lines (the newline itself is removed by
the strip in stripLine). -/
def parseRequirementsFile (reqPath content : String) : Finset DependencyRecord :=
  parsePythonDependencies reqPath (splitLines content)

/-- An npm record as the JavaScript parsers build it: type "npm", no git
commit yet. -/
def npmRecord (path name : String) (version dev : Json) : DependencyRecord :=
  { name := name, version := version, type := "npm", path := path,
    dev := dev, git_commit := none }

/-- DependencyScanner._parse_package: one record per entry of the
dependencies map (dev = False) and one per entry of the optional
devDependencies map (dev = True, defaulting to an empty map).  A missing
dependencies key raises KeyError and a non-dict dependencies or
devDependencies value raises AttributeError on .items(); the spec's
taxonomy names both MalformedManifestError. -/
def parsePackage (package : Json) (path : String) :
    Except ParseError (Finset DependencyRecord) :=
  match asObj package with
  | none => .error .typeError
  | some fields =>
    match getKey fields "dependencies" with
    | none => .error .malformedManifest
    | some depsJson =>
      match asObj depsJson with
      | none => .error .malformedManifest
      | some deps =>
        match asObj ((getKey fields "devDependencies").getD (.obj [])) with
        | none => .error .malformedManifest
        | some devDeps =>
          .ok ((deps.map (fun p => npmRecord path p.1 p.2 (.bool false))).toFinset ∪
               (devDeps.map (fun p => npmRecord path p.1 p.2 (.bool true))).toFinset)

/-- DependencyScanner._parse_package_json: load the file and parse it with
_parse_package (file content arrives already JSON-decoded in the model). -/
def parsePackageJson (data : Json) (path : String) :
    Except ParseError (Finset DependencyRecord) :=
  parsePackage data path

/-- The suffix after the last (rightmost) occurrence of the pattern in
the character list, or none when the pattern does not occur. -/
def afterLastChars (pat : List Char) : List Char → Option (List Char)
  | [] => if pat.isPrefixOf ([] : List Char) then some [] else none
  | c :: rest =>
    match afterLastChars pat rest with
    | some suffix => some suffix
    | none =>
      if pat.isPrefixOf (c :: rest) then some ((c :: rest).drop pat.length)
      else none

/-- name.split("node_modules/")[-1] from _parse_package_lock_json: the
text after the last occurrence of "node_modules/", or the whole key when
the segment does not occur. -/
def afterLastNodeModules (key : String) : String :=
  match afterLastChars "node_modules/".data key.data with
  | some suffix => String.mk suffix
  | none => key

/-- One record of the lockfileVersion 3 branch of
_parse_package_lock_json, for a packages entry with the given key and
fields: version from the entry's version field (null when missing) and
dev from its dev field (False when missing). -/
def lockRecord (path key : String) (info : List (String × Json)) : DependencyRecord :=
  npmRecord path (afterLastNodeModules key)
    ((getKey info "version").getD .null)
    ((getKey info "dev").getD (.bool false))

/-- The set comprehension of the lockfileVersion 3 branch of
_parse_package_lock_json over packages.items(): skip the empty key (the
project root); a non-dict entry value raises AttributeError on .get. -/
def parseLockEntries (path : String) :
    List (String × Json) → Except ParseError (List DependencyRecord)
  | [] => .ok []
  | (key, info) :: rest =>
    if key = "" then parseLockEntries path rest
    else
      match asObj info with
      | none => .error .attributeError
      | some fields =>
          (parseLockEntries path rest).map (fun recs => lockRecord path key fields :: recs)

/-- DependencyScanner._parse_package_lock_json: read lockfileVersion;
versions 1 and 2 raise NotImplementedError (the spec's
UnsupportedLockfileVersionError), version 3 parses the packages map, and
any other version raises ValueError (the spec's
UnrecognizedLockfileVersionError). -/
def parsePackageLockJson (data : Json) (path : String) :
    Except ParseError (Finset DependencyRecord) :=
  match asObj data with
  | none => .error .typeError
  | some fields =>
    match getKey fields "lockfileVersion" with
    | none => .error .keyError
    | some lv =>
      if lv = .int 1 ∨ lv = .int 2 then .error .unsupportedLockfileVersion
      else if lv = .int 3 then
        match getKey fields "packages" with
        | none => .error .keyError
        | some packagesJson =>
          match asObj packagesJson with
          | none => .error .attributeError
          | some packages => (parseLockEntries path packages).map List.toFinset
      else .error .unrecognizedLockfileVersion

/-- DependencyScanner._parse_javascript_dependencies: prefer the lockfile;
a NotImplementedError from it is caught (logged as a warning) and the
package.json, if any, is parsed instead.  When the caught fallback finds
no package.json the Python function falls off its end and returns None,
modelled by Except.ok none; every other lockfile failure propagates. -/
def parseJavascriptDependencies (packageJson packageLockJson : Option Json)
    (packageJsonPath packageLockJsonPath : String) :
    Except ParseError (Option (Finset DependencyRecord)) :=
  match packageLockJson with
  | some lockData =>
    match parsePackageLockJson lockData packageLockJsonPath with
    | .ok records => .ok (some records)
    | .error .unsupportedLockfileVersion =>
        match packageJson with
        | some pkgData => (parsePackageJson pkgData packageJsonPath).map some
        | none => .ok none
    | .error e => .error e
  | none =>
    match packageJson with
    | some pkgData => (parsePackageJson pkgData packageJsonPath).map some
    | none => .ok none

/-- One repository directory as _scan_repo sees it: the contents of the
recognized manifest files present in it (requirements.txt as its list of
lines, the two JSON manifests already decoded), the paths those files
were found at, and the value the provenance subprocess returns for the
repository (none when git is missing, the directory is not a repository,
or git exits with a failure status). -/
structure RepoInput where
  requirements : Option (List String) := none
  packageJson : Option Json := none
  packageLockJson : Option Json := none
  requirementsPath : String := "requirements.txt"
  packageJsonPath : String := "package.json"
  packageLockJsonPath : String := "package-lock.json"
  gitCommit : Option String := none
deriving DecidableEq

/-- The manifest-parsing part of DependencyScanner._scan_repo, before the
git commit is stamped: parse requirements.txt when present; when a
lockfile or package descriptor is present, defer to
_parse_javascript_dependencies and update the running set with its
result — a None result there makes set.update raise TypeError. -/
def scanRepoRecords (repo : RepoInput) : Except ParseError (Finset DependencyRecord) :=
  let pythonDeps : Finset DependencyRecord :=
    match repo.requirements with
    | some lines => parsePythonDependencies repo.requirementsPath lines
    | none => ∅
  if repo.packageLockJson.isSome || repo.packageJson.isSome then
    match parseJavascriptDependencies repo.packageJson repo.packageLockJson
        repo.packageJsonPath repo.packageLockJsonPath with
    | .error e => .error e
    | .ok (some jsDeps) => .ok (pythonDeps ∪ jsDeps)
    | .ok none => .error .typeError
  else .ok pythonDeps

/-- The provenance stamping step of _scan_repo: dataclasses.replace of the
git_commit field on every record of the set. -/
def stampProvenance (gitCommit : Option String) (records : Finset DependencyRecord) :
    Finset DependencyRecord :=
  records.image (fun d => { d with git_commit := gitCommit })

/-- DependencyScanner._scan_repo: parse all recognized manifests of the
repository, then stamp every record with the repository's git commit
(resolved once). -/
def scanRepo (repo : RepoInput) : Except ParseError (Finset DependencyRecord) :=
  (scanRepoRecords repo).map (stampProvenance repo.gitCommit)

/-- One immediate entry of the root directory: a flag telling whether it
is a subdirectory, and (when it is) the repository content behind it. -/
structure RootEntry where
  isDir : Bool
  repo : RepoInput
deriving DecidableEq

/-- The repository list of DependencyScanner.scan: the immediate
subdirectories of the root, non-directory entries ignored. -/
def reposOf (root : List RootEntry) : List RepoInput :=
  (root.filter (fun e => e.isDir)).map (fun e => e.repo)

/-- The mutable state of a DependencyScanner instance: its dependencies
attribute, None until a scan has stored a set there. -/
structure ScannerState where
  dependencies : Option (Finset DependencyRecord)
deriving DecidableEq

/-- The repository loop of DependencyScanner.scan: scan each repository
in turn, updating the accumulated set in place; an uncaught parser
exception stops the loop, leaving the set as accumulated so far. -/
def scanLoop : List RepoInput → Finset DependencyRecord →
    Except ParseError Unit × Finset DependencyRecord
  | [], acc => (.ok (), acc)
  | repo :: rest, acc =>
    match scanRepo repo with
    | .error e => (.error e, acc)
    | .ok repoDeps => scanLoop rest (acc ∪ repoDeps)

/-- The per-repository results of the loop in DependencyScanner.scan, as
a list: the record set of every repository, or the first uncaught parser
exception. -/
def scanAll : List RepoInput → Except ParseError (List (Finset DependencyRecord))
  | [] => .ok []
  | repo :: rest =>
    match scanRepo repo with
    | .error e => .error e
    | .ok repoDeps => (scanAll rest).map (fun sets => repoDeps :: sets)

/-- DependencyScanner.scan: list the immediate subdirectories of the root
(raising NoRepositoriesFoundError if there are none, before touching the
dependencies attribute), reset the dependencies attribute to an empty
set, run the repository loop, and raise NoDependenciesFoundError when the
accumulated set is still empty at the end.  Returned alongside the
outcome is the state of the instance afterwards, since the Python method
mutates self.dependencies even on the paths that raise. -/
def scan (root : List RootEntry) (st : ScannerState) :
    Except ScanError Unit × ScannerState :=
  let repos := reposOf root
  if repos.isEmpty then (.error .noRepositoriesFound, st)
  else
    match scanLoop repos ∅ with
    | (.error e, acc) => (.error (.parseFailure e), ⟨some acc⟩)
    | (.ok (), acc) =>
      if acc = ∅ then (.error .noDependenciesFound, ⟨some acc⟩)
      else (.ok (), ⟨some acc⟩)

/-- DependencyScanner.get_dependencies: scan only when the dependencies
attribute is still None, then return it.  The root argument is the
filesystem as found at call time; the final Nat counts how many times the
scanning step ran during this call (the spec's side-effect counter). -/
def getDependencies (root : List RootEntry) (st : ScannerState) :
    Except ScanError (Finset DependencyRecord) × ScannerState × Nat :=
  match st.dependencies with
  | some deps => (.ok deps, st, 0)
  | none =>
    match scan root st with
    | (.error e, st2) => (.error e, st2, 1)
    | (.ok (), st2) => (.ok (st2.dependencies.getD ∅), st2, 1)

/-- Comment stripping as the spec sentence words it, kept separate from
stripLine (which embeds the source) so the two can be compared: cut at
the first unescaped '#', where a '#' immediately preceded by a backslash
counts as escaped and does not start a comment. -/
def stripUnescapedGo : List Char → List Char
  | [] => []
  | '\\' :: '#' :: rest => '\\' :: '#' :: stripUnescapedGo rest
  | '#' :: _ => []
  | c :: rest => c :: stripUnescapedGo rest

/-- String version of stripUnescapedGo: everything before the first
unescaped '#' of the line. -/
def specStripUnescapedComment (line : String) : String :=
  String.mk (stripUnescapedGo line.data)

/-- The record set of the dependencies and devDependencies maps of a
package.json, as the ok branch of _parse_package builds it. -/
def pkgFinset (path : String) (deps devDeps : List (String × Json)) :
    Finset DependencyRecord :=
  (deps.map (fun p => npmRecord path p.1 p.2 (Json.bool false))).toFinset ∪
    (devDeps.map (fun p => npmRecord path p.1 p.2 (Json.bool true))).toFinset

/-- The record set of a lockfileVersion 3 packages map whose non-root
entries are all objects: one record per entry other than the project
root. -/
def lockFinset (path : String) (packages : List (String × Json)) :
    Finset DependencyRecord :=
  (packages.filterMap (fun p =>
    if p.1 = "" then none
    else (asObj p.2).map (fun o => lockRecord path p.1 o))).toFinset

/-- A package-lock.json content with lockfileVersion 1. -/
def exampleLockV1 : Json := .obj [("lockfileVersion", .int 1)]

/-- A package-lock.json content with lockfileVersion 4. -/
def exampleLockV4 : Json := .obj [("lockfileVersion", .int 4)]

/-- The lockfileVersion 3 example from the spec's testable properties:
a root entry, a package a, and a package b nested inside a. -/
def exampleLockV3 : Json := .obj
  [("lockfileVersion", .int 3),
   ("packages", .obj
     [("", .obj [("name", .str "root")]),
      ("node_modules/a", .obj [("version", .str "1.2.3")]),
      ("node_modules/a/node_modules/b", .obj [("version", .str "0.9.0")])])]

/-- A package.json content with a single regular dependency. -/
def examplePackageJson : Json := .obj
  [("name", .str "myproject"),
   ("dependencies", .obj [("express", .str "^4.18.2")])]

/-- A repository containing only a version 1 package-lock.json. -/
def exampleRepoLockV1Only : RepoInput := { packageLockJson := some exampleLockV1 }

/-- A repository containing only a one-line requirements.txt. -/
def exampleRepoFlask : RepoInput := { requirements := some ["flask"] }

/-- A root whose single repository has an empty requirements.txt. -/
def exampleRootNoDeps : List RootEntry := [⟨true, { requirements := some [] }⟩]

/-- A root whose single repository is exampleRepoFlask. -/
def exampleRootFlask : List RootEntry := [⟨true, exampleRepoFlask⟩]

/-- When every operator before op in the scan order misses the line and
op splits it at its first occurrence, the operator loop stops at op with
that split. -/
theorem findOperator_of_first (line op before after : String) :
    ∀ pre post : List String, (∀ o ∈ pre, splitFirst line o = none) →
      splitFirst line op = some (before, after) →
      findOperator (pre ++ op :: post) line = some (op, before, after) := by
  intro pre
  induction pre with
  | nil =>
    intro post _ hsplit
    simp [findOperator, hsplit]
  | cons o pre ih =>
    intro post hpre hsplit
    have ho : splitFirst line o = none := hpre o (List.mem_cons_self o pre)
    have hrest : ∀ o' ∈ pre, splitFirst line o' = none :=
      fun o' ho' => hpre o' (List.mem_cons_of_mem o ho')
    simp only [List.cons_append, findOperator, ho]
    exact ih post hrest hsplit

/-- When no operator of the list occurs in the line, the operator loop
finds nothing. -/
theorem findOperator_of_none (line : String) :
    ∀ ops : List String, (∀ o ∈ ops, splitFirst line o = none) →
      findOperator ops line = none := by
  intro ops
  induction ops with
  | nil => intro _; rfl
  | cons o ops ih =>
    intro h
    have ho : splitFirst line o = none := h o (List.mem_cons_self o ops)
    simp only [findOperator, ho]
    exact ih (fun o' ho' => h o' (List.mem_cons_of_mem o ho'))

/-- C3: for every requirements.txt line that, after comment stripping and
trimming, contains one of the seven operators — op being the first member
of the fixed scan order ==, >=, <=, !=, ~=, >, < occurring in it — the
parser yields a record named with the trimmed text before the first
occurrence of op and versioned with op concatenated with the remainder;
a non-empty line containing no operator yields a record with no
version. -/
theorem requirements_operator_parsing (reqPath rawLine : String) :
    (∀ (pre post : List String) (op before after : String),
      operators = pre ++ op :: post →
      (∀ o ∈ pre, splitFirst (stripLine rawLine) o = none) →
      splitFirst (stripLine rawLine) op = some (before, after) →
      stripLine rawLine ≠ "" →
      parseRequirementLine reqPath rawLine =
        some (pipRecord reqPath (pyStrip before) (Json.str (op ++ after))))
  ∧ ((∀ o ∈ operators, splitFirst (stripLine rawLine) o = none) →
      stripLine rawLine ≠ "" →
      parseRequirementLine reqPath rawLine =
        some (pipRecord reqPath (stripLine rawLine) Json.null)) := by
  constructor
  · intro pre post op before after hops hpre hsplit hne
    unfold parseRequirementLine parseStrippedLine
    rw [if_neg hne, hops, findOperator_of_first _ op before after pre post hpre hsplit]
  · intro hnone hne
    unfold parseRequirementLine parseStrippedLine
    rw [if_neg hne, findOperator_of_none _ operators hnone]

/-- Witness for C3: parsing the concrete line "numpy >= 1.2" through the
theorem, with the scan-order hypotheses discharged by evaluation. -/
theorem requirements_operator_parsing_witness :
    parseRequirementLine "requirements.txt" "numpy >= 1.2" =
      some (pipRecord "requirements.txt" "numpy" (Json.str ">= 1.2")) :=
  (requirements_operator_parsing "requirements.txt" "numpy >= 1.2").1
    ["=="] ["<=", "!=", "~=", ">", "<"] ">=" "numpy " " 1.2"
    (by decide) (by decide) (by decide) (by decide)

/-- Counterexample for C4 as stated: on the line a\#b the only '#' is
preceded by a backslash, so stripping at the first unescaped '#' would
leave the line whole and yield a record named a\#b; the parser instead
strips at the first '#' regardless and yields a record named a\ . -/
theorem requirements_comment_stripping_counterexample :
    parseRequirementLine "requirements.txt" "a\\#b" =
      some (pipRecord "requirements.txt" "a\\" Json.null)
  ∧ pyStrip (specStripUnescapedComment "a\\#b") = "a\\#b"
  ∧ parseRequirementLine "requirements.txt" "a\\#b" ≠
      some (pipRecord "requirements.txt"
        (pyStrip (specStripUnescapedComment "a\\#b")) Json.null) := by
  refine ⟨by decide, by decide, by decide⟩

/-- C4 (amended: the parser strips from the first '#' onward whether or
not it is preceded by a backslash): each line is cut at its first '#',
trimmed, parsed from the remainder only, and dropped when it became
empty; the example input of three lines flask, a comment and numpy
yields exactly the records flask and numpy. -/
theorem requirements_comment_stripping (reqPath rawLine : String) :
    parseRequirementLine reqPath rawLine =
      parseStrippedLine reqPath
        (pyStrip (String.mk (rawLine.data.takeWhile (fun c => c ≠ '#'))))
  ∧ (stripLine rawLine = "" → parseRequirementLine reqPath rawLine = none)
  ∧ parseRequirementsFile "requirements.txt" "flask\n#requests==3.23.1\nnumpy" =
      {pipRecord "requirements.txt" "flask" Json.null,
       pipRecord "requirements.txt" "numpy" Json.null} := by
  refine ⟨rfl, ?_, by decide⟩
  intro h
  unfold parseRequirementLine
  rw [h]
  rfl

/-- Witness for C4: a line that is only a comment after trimming produces
no record. -/
theorem requirements_comment_stripping_witness :
    parseRequirementLine "requirements.txt" "   # only a comment" = none :=
  (requirements_comment_stripping "requirements.txt" "   # only a comment").2.1 (by decide)

/-- asObj succeeds exactly on object values, returning their fields. -/
theorem asObj_eq_some (v : Json) (fields : List (String × Json)) :
    asObj v = some fields ↔ v = Json.obj fields := by
  cases v <;> simp [asObj]

/-- asObj on an object literal. -/
theorem asObj_obj (fields : List (String × Json)) :
    asObj (Json.obj fields) = some fields := rfl

/-- C2: a package.json whose top-level object has no dependencies key, or
whose dependencies value is not a map, fails as a malformed manifest;
when dependencies is a map (and devDependencies, if present, is one too),
the parser returns one record per dependencies entry with dev false and
one per devDependencies entry with dev true, a missing devDependencies
map being treated as empty via the default of dict.get. -/
theorem package_manifest_parsing (fields : List (String × Json)) (path : String) :
    ((getKey fields "dependencies" = none ∨
        (∃ v, getKey fields "dependencies" = some v ∧ asObj v = none)) →
      parsePackage (Json.obj fields) path = .error .malformedManifest)
  ∧ (∀ deps devDeps : List (String × Json),
      getKey fields "dependencies" = some (Json.obj deps) →
      (getKey fields "devDependencies").getD (Json.obj []) = Json.obj devDeps →
      parsePackage (Json.obj fields) path = .ok (pkgFinset path deps devDeps)
      ∧ ∀ d, d ∈ pkgFinset path deps devDeps ↔
          ((∃ p ∈ deps, d = npmRecord path p.1 p.2 (Json.bool false)) ∨
           (∃ p ∈ devDeps, d = npmRecord path p.1 p.2 (Json.bool true)))) := by
  constructor
  · rintro (hnone | ⟨v, hv, hvo⟩)
    · simp [parsePackage, asObj_obj, hnone]
    · simp [parsePackage, asObj_obj, hv, hvo]
  · intro deps devDeps hdeps hdev
    constructor
    · simp [parsePackage, asObj_obj, hdeps, hdev, pkgFinset]
    · intro d
      simp only [pkgFinset, Finset.mem_union, List.mem_toFinset, List.mem_map]
      constructor
      · rintro (⟨p, hp, rfl⟩ | ⟨p, hp, rfl⟩)
        · exact Or.inl ⟨p, hp, rfl⟩
        · exact Or.inr ⟨p, hp, rfl⟩
      · rintro (⟨p, hp, rfl⟩ | ⟨p, hp, rfl⟩)
        · exact Or.inl ⟨p, hp, rfl⟩
        · exact Or.inr ⟨p, hp, rfl⟩

/-- Witness for C2: the example package.json produces exactly its one
express record, with the hypotheses evaluated on the concrete fields. -/
theorem package_manifest_parsing_witness :
    parsePackage examplePackageJson "package.json" =
      .ok {npmRecord "package.json" "express" (Json.str "^4.18.2") (Json.bool false)} := by
  have h := ((package_manifest_parsing
      [("name", Json.str "myproject"),
       ("dependencies", Json.obj [("express", Json.str "^4.18.2")])] "package.json").2
    [("express", Json.str "^4.18.2")] [] (by decide) (by decide)).1
  exact h.trans (congrArg Except.ok (by decide))

/-- When every non-root packages entry carries an object, the lockfile
entry loop succeeds and produces exactly the records of the non-root
entries, in order. -/
theorem parseLockEntries_eq_ok (path : String) :
    ∀ entries : List (String × Json),
      (∀ p ∈ entries, p.1 ≠ "" → ∃ o, p.2 = Json.obj o) →
      parseLockEntries path entries =
        .ok (entries.filterMap (fun p =>
          if p.1 = "" then none
          else (asObj p.2).map (fun o => lockRecord path p.1 o))) := by
  intro entries
  induction entries with
  | nil => intro _; rfl
  | cons p rest ih =>
    intro h
    obtain ⟨key, info⟩ := p
    have hrest : ∀ q ∈ rest, q.1 ≠ "" → ∃ o, q.2 = Json.obj o :=
      fun q hq => h q (List.mem_cons_of_mem _ hq)
    by_cases hkey : key = ""
    · simp [parseLockEntries, hkey, List.filterMap_cons, ih hrest]
    · obtain ⟨o, ho⟩ := h (key, info) (List.mem_cons_self _ _) hkey
      simp only at ho
      subst ho
      simp [parseLockEntries, hkey, List.filterMap_cons, asObj_obj, ih hrest, Except.map]

/-- C5: a package-lock.json with integer lockfileVersion 3 whose non-root
packages entries are objects parses to one record per entry of the
packages map except the empty-string project-root key, named by the text
after the last occurrence of node_modules/ in the key, versioned from the
entry's version field (null when missing), with dev from the entry's dev
field defaulting to false. -/
theorem lockfile_v3_parsing (fields packages : List (String × Json)) (path : String)
    (hlv : getKey fields "lockfileVersion" = some (Json.int 3))
    (hpk : getKey fields "packages" = some (Json.obj packages))
    (hobj : ∀ p ∈ packages, p.1 ≠ "" → (asObj p.2).isSome = true) :
    parsePackageLockJson (Json.obj fields) path = .ok (lockFinset path packages)
  ∧ ∀ d, d ∈ lockFinset path packages ↔
      ∃ p ∈ packages, p.1 ≠ "" ∧ ∃ o, p.2 = Json.obj o ∧
        d = npmRecord path (afterLastNodeModules p.1)
              ((getKey o "version").getD Json.null)
              ((getKey o "dev").getD (Json.bool false)) := by
  have hobj2 : ∀ p ∈ packages, p.1 ≠ "" → ∃ o, p.2 = Json.obj o := by
    intro p hp hne
    obtain ⟨o, ho⟩ := Option.isSome_iff_exists.mp (hobj p hp hne)
    exact ⟨o, (asObj_eq_some _ _).mp ho⟩
  constructor
  · simp [parsePackageLockJson, asObj_obj, hlv, hpk,
      parseLockEntries_eq_ok path packages hobj2, lockFinset, Except.map]
  · intro d
    simp only [lockFinset, List.mem_toFinset, List.mem_filterMap]
    constructor
    · rintro ⟨p, hp, heq⟩
      by_cases hkey : p.1 = ""
      · simp [hkey] at heq
      · rw [if_neg hkey] at heq
        obtain ⟨o, hoeq, hrec⟩ := Option.map_eq_some'.mp heq
        exact ⟨p, hp, hkey, o, (asObj_eq_some _ _).mp hoeq, hrec.symm⟩
    · rintro ⟨p, hp, hkey, o, ho, rfl⟩
      refine ⟨p, hp, ?_⟩
      rw [if_neg hkey, ho, asObj_obj]
      rfl

/-- Witness for C5: the spec's lockfileVersion 3 example yields exactly
the records a and b with their versions, the root entry excluded. -/
theorem lockfile_v3_parsing_witness :
    parsePackageLockJson exampleLockV3 "package-lock.json" =
      .ok {npmRecord "package-lock.json" "a" (Json.str "1.2.3") (Json.bool false),
           npmRecord "package-lock.json" "b" (Json.str "0.9.0") (Json.bool false)} := by
  have h := (lockfile_v3_parsing
      [("lockfileVersion", Json.int 3),
       ("packages", Json.obj
         [("", Json.obj [("name", Json.str "root")]),
          ("node_modules/a", Json.obj [("version", Json.str "1.2.3")]),
          ("node_modules/a/node_modules/b", Json.obj [("version", Json.str "0.9.0")])])]
      [("", Json.obj [("name", Json.str "root")]),
       ("node_modules/a", Json.obj [("version", Json.str "1.2.3")]),
       ("node_modules/a/node_modules/b", Json.obj [("version", Json.str "0.9.0")])]
      "package-lock.json" (by decide) (by decide) (by decide)).1
  exact h.trans (congrArg Except.ok (by decide))

/-- C6: a package-lock.json whose integer lockfileVersion lies outside
1, 2, 3 fails as an unrecognized lockfile version, and the JavaScript
dispatch propagates that failure unchanged — it never falls back to a
package.json, whether or not one is present. -/
theorem unrecognized_lockfile_version (fields : List (String × Json)) (path : String)
    (n : Int) (hlv : getKey fields "lockfileVersion" = some (Json.int n))
    (h1 : n ≠ 1) (h2 : n ≠ 2) (h3 : n ≠ 3) :
    parsePackageLockJson (Json.obj fields) path =
      .error .unrecognizedLockfileVersion
  ∧ ∀ (packageJson : Option Json) (packageJsonPath : String),
      parseJavascriptDependencies packageJson (some (Json.obj fields))
        packageJsonPath path = .error .unrecognizedLockfileVersion := by
  have hlock : parsePackageLockJson (Json.obj fields) path =
      .error .unrecognizedLockfileVersion := by
    simp [parsePackageLockJson, asObj_obj, hlv, Json.int.injEq, h1, h2, h3]
  refine ⟨hlock, ?_⟩
  intro packageJson packageJsonPath
  simp [parseJavascriptDependencies, hlock]

/-- Witness for C6: lockfileVersion 4 is rejected and not recovered even
with a well-formed package.json sitting next to the lockfile. -/
theorem unrecognized_lockfile_version_witness :
    parsePackageLockJson exampleLockV4 "package-lock.json" =
      .error .unrecognizedLockfileVersion
  ∧ parseJavascriptDependencies (some examplePackageJson) (some exampleLockV4)
      "package.json" "package-lock.json" = .error .unrecognizedLockfileVersion := by
  have h := unrecognized_lockfile_version [("lockfileVersion", Json.int 4)]
    "package-lock.json" 4 (by decide) (by decide) (by decide) (by decide)
  exact ⟨h.1, h.2 (some examplePackageJson) "package.json"⟩

/-- C1 (failing side): a repository whose package-lock.json has
lockfileVersion 1 and which has no package.json.  The lockfile parser
raises the unsupported-version error, but the JavaScript dispatch catches
it and falls off its end returning None, so the repository scan fails
with a TypeError from set.update(None) instead of propagating the
unsupported-version error. -/
theorem lockfile_v1_no_fallback_bug :
    parsePackageLockJson exampleLockV1 "package-lock.json" =
      .error .unsupportedLockfileVersion
  ∧ parseJavascriptDependencies (some examplePackageJson) (some exampleLockV1)
      "package.json" "package-lock.json" =
      .ok (some {npmRecord "package.json" "express" (Json.str "^4.18.2") (Json.bool false)})
  ∧ parseJavascriptDependencies none (some exampleLockV1)
      "package.json" "package-lock.json" = .ok none
  ∧ scanRepo exampleRepoLockV1Only = .error .typeError
  ∧ scanRepo exampleRepoLockV1Only ≠ .error .unsupportedLockfileVersion := by
  refine ⟨by decide, by decide, by decide, by decide, by decide⟩

/-- C7: when the manifest parsing of a repository succeeds, the
repository scan succeeds and returns the parsed records with provenance
(resolved once, as the gitCommit oracle of the repository) substituted
uniformly into vcs_revision, every other field untouched; in particular
when provenance resolution failed (gitCommit is none) the scan still
succeeds and every returned record has no git commit. -/
theorem provenance_stamping (repo : RepoInput) (records : Finset DependencyRecord)
    (h : scanRepoRecords repo = .ok records) :
    scanRepo repo = .ok (stampProvenance repo.gitCommit records)
  ∧ (∀ d, d ∈ stampProvenance repo.gitCommit records ↔
      ∃ d0 ∈ records, d.name = d0.name ∧ d.version = d0.version ∧
        d.type = d0.type ∧ d.path = d0.path ∧ d.dev = d0.dev ∧
        d.git_commit = repo.gitCommit)
  ∧ (repo.gitCommit = none →
      ∀ d ∈ stampProvenance repo.gitCommit records, d.git_commit = none) := by
  have hmem : ∀ d, d ∈ stampProvenance repo.gitCommit records ↔
      ∃ d0 ∈ records, d.name = d0.name ∧ d.version = d0.version ∧
        d.type = d0.type ∧ d.path = d0.path ∧ d.dev = d0.dev ∧
        d.git_commit = repo.gitCommit := by
    intro d
    simp only [stampProvenance, Finset.mem_image]
    constructor
    · rintro ⟨d0, hd0, rfl⟩
      exact ⟨d0, hd0, rfl, rfl, rfl, rfl, rfl, rfl⟩
    · rintro ⟨d0, hd0, hname, hversion, htype, hpath, hdev, hgc⟩
      refine ⟨d0, hd0, ?_⟩
      obtain ⟨n, v, t, p, dv, g⟩ := d
      obtain ⟨n0, v0, t0, p0, dv0, g0⟩ := d0
      simp_all
  refine ⟨by simp [scanRepo, h, Except.map], hmem, ?_⟩
  intro hnone d hd
  rw [hnone] at hd
  obtain ⟨_, _, _, _, _, _, _, hgc⟩ := (hmem d).mp (by rw [hnone]; exact hd)
  rw [hgc, hnone]

/-- Witness for C7: the flask repository, whose provenance resolution
failed, still scans successfully and its record carries no git commit. -/
theorem provenance_stamping_witness :
    scanRepo exampleRepoFlask =
      .ok {pipRecord "requirements.txt" "flask" Json.null} := by
  have h := (provenance_stamping exampleRepoFlask
      {pipRecord "requirements.txt" "flask" Json.null} (by decide)).1
  exact h.trans (congrArg Except.ok (by decide))

/-- When every repository scan succeeds, the in-place repository loop
succeeds and accumulates the union of the per-repository sets. -/
theorem scanLoop_of_scanAll :
    ∀ (repos : List RepoInput) (sets : List (Finset DependencyRecord))
      (acc : Finset DependencyRecord),
      scanAll repos = .ok sets →
      scanLoop repos acc = (.ok (), sets.foldl (· ∪ ·) acc) := by
  intro repos
  induction repos with
  | nil =>
    intro sets acc h
    obtain rfl : ([] : List (Finset DependencyRecord)) = sets := by
      simpa [scanAll] using h
    rfl
  | cons repo rest ih =>
    intro sets acc h
    simp only [scanAll] at h
    rcases hrepo : scanRepo repo with e | repoDeps <;> rw [hrepo] at h
    · exact absurd h (by simp)
    · rcases hrest : scanAll rest with e | restSets <;> rw [hrest] at h
      · exact absurd h (by simp [Except.map])
      · obtain rfl : repoDeps :: restSets = sets := by
          simpa [Except.map] using h
        simp only [scanLoop, hrepo, List.foldl_cons]
        exact ih restSets (acc ∪ repoDeps) hrest

/-- When the in-place repository loop succeeds, every repository scan
succeeded and the final set is the union of the per-repository sets. -/
theorem scanAll_of_scanLoop :
    ∀ (repos : List RepoInput) (acc finalAcc : Finset DependencyRecord),
      scanLoop repos acc = (.ok (), finalAcc) →
      ∃ sets, scanAll repos = .ok sets ∧ finalAcc = sets.foldl (· ∪ ·) acc := by
  intro repos
  induction repos with
  | nil =>
    intro acc finalAcc h
    obtain rfl : acc = finalAcc := by simpa [scanLoop] using h
    exact ⟨[], rfl, rfl⟩
  | cons repo rest ih =>
    intro acc finalAcc h
    simp only [scanLoop] at h
    rcases hrepo : scanRepo repo with e | repoDeps <;> rw [hrepo] at h
    · exact absurd h (by simp)
    · obtain ⟨sets, hsets, hacc⟩ := ih (acc ∪ repoDeps) finalAcc h
      exact ⟨repoDeps :: sets, by simp [scanAll, hrepo, hsets, Except.map], by
        simpa [List.foldl_cons] using hacc⟩

/-- C8: the full scan fails with NoRepositoriesFoundError exactly when
the root has no immediate subdirectories (non-directory entries ignored),
and — when subdirectories exist — fails with NoDependenciesFoundError
exactly when every subdirectory was processed successfully and the union
of all per-repository record sets is empty. -/
theorem scan_emptiness_errors (root : List RootEntry) (st : ScannerState) :
    ((scan root st).1 = .error .noRepositoriesFound ↔ reposOf root = [])
  ∧ ((scan root st).1 = .error .noDependenciesFound ↔
      (reposOf root ≠ [] ∧ ∃ sets, scanAll (reposOf root) = .ok sets ∧
        sets.foldl (· ∪ ·) ∅ = ∅)) := by
  by_cases hempty : reposOf root = []
  · constructor
    · simp [scan, hempty]
    · simp [scan, hempty]
  · have hbool : (reposOf root).isEmpty = false := by
      simpa [List.isEmpty_iff] using hempty
    rcases hloop : scanLoop (reposOf root) ∅ with ⟨res, acc⟩
    rcases res with e | u
    · have hscan : (scan root st).1 = .error (.parseFailure e) := by
        simp [scan, hbool, hloop]
      constructor
      · simp [hscan, hempty]
      · rw [hscan]
        simp only [iff_def]
        constructor
        · intro h
          exact absurd h (by simp)
        · rintro ⟨_, sets, hsets, _⟩
          have := scanLoop_of_scanAll (reposOf root) sets ∅ hsets
          rw [hloop] at this
          exact absurd (congrArg Prod.fst this) (by simp)
    · by_cases hacc : acc = ∅
      · subst hacc
        have hscan : (scan root st).1 = .error .noDependenciesFound := by
          simp [scan, hbool, hloop]
        constructor
        · simp [hscan, hempty]
        · rw [hscan]
          obtain ⟨sets, hsets, hfold⟩ := scanAll_of_scanLoop (reposOf root) ∅ ∅ hloop
          simp only [true_iff]
          exact ⟨hempty, sets, hsets, hfold.symm⟩
      · have hscan : (scan root st).1 = .ok () := by
          simp [scan, hbool, hloop, hacc]
        constructor
        · simp [hscan, hempty]
        · rw [hscan]
          simp only [iff_def]
          constructor
          · intro h
            exact absurd h (by simp)
          · rintro ⟨_, sets, hsets, hfold⟩
            have := scanLoop_of_scanAll (reposOf root) sets ∅ hsets
            rw [hloop] at this
            have : acc = sets.foldl (· ∪ ·) ∅ := congrArg Prod.snd this
            exact absurd (this.trans hfold) hacc

/-- Witness for C8: a root with one repository whose only manifest is an
empty requirements.txt scans every repository, finds the union empty, and
fails with NoDependenciesFoundError. -/
theorem scan_emptiness_errors_witness :
    (scan exampleRootNoDeps ⟨none⟩).1 = .error .noDependenciesFound :=
  (scan_emptiness_errors exampleRootNoDeps ⟨none⟩).2.mpr
    ⟨by decide, [∅], by decide, by decide⟩

/-- A successful scan always leaves a set stored in the dependencies
attribute. -/
theorem scan_ok_state (root : List RootEntry) (st st2 : ScannerState)
    (h : scan root st = (.ok (), st2)) :
    ∃ acc, st2 = ⟨some acc⟩ := by
  rw [scan] at h
  split at h
  · exact absurd (congrArg Prod.fst h) (by simp)
  · split at h
    · exact absurd (congrArg Prod.fst h) (by simp)
    · split at h
      · exact absurd (congrArg Prod.fst h) (by simp)
      · exact ⟨_, (congrArg Prod.snd h).symm⟩

/-- C9: once a retrieval has succeeded on a scanner instance, every later
retrieval on that instance returns the identical corpus and the identical
state without running the scanning step again (its run count is 0),
whatever the filesystem looks like by then. -/
theorem get_dependencies_idempotent (root root2 : List RootEntry)
    (st st2 : ScannerState) (deps : Finset DependencyRecord) (n : Nat)
    (h : getDependencies root st = (.ok deps, st2, n)) :
    getDependencies root2 st2 = (.ok deps, st2, 0) := by
  have hcached : st2.dependencies = some deps := by
    rw [getDependencies] at h
    split at h
    · rename_i d hd
      simp only [Prod.mk.injEq] at h
      obtain ⟨hok, hst2, -⟩ := h
      rw [← hst2, hd]
      injection hok with hok
      rw [hok]
    · split at h
      · simp only [Prod.mk.injEq] at h
        exact absurd h.1 (by simp)
      · rename_i stM hscan
        simp only [Prod.mk.injEq] at h
        obtain ⟨hok, hst2, -⟩ := h
        obtain ⟨acc, rfl⟩ := scan_ok_state root st stM hscan
        injection hok with hok
        rw [← hst2]
        simpa using congrArg some hok
  rw [getDependencies, hcached]

/-- Witness for C9: after the flask root has been scanned once, a second
retrieval — even against an emptied filesystem — returns the same
singleton corpus with no further scan. -/
theorem get_dependencies_idempotent_witness :
    getDependencies [] ⟨some {pipRecord "requirements.txt" "flask" Json.null}⟩ =
      (.ok {pipRecord "requirements.txt" "flask" Json.null},
       ⟨some {pipRecord "requirements.txt" "flask" Json.null}⟩, 0) :=
  get_dependencies_idempotent exampleRootFlask [] ⟨none⟩
    ⟨some {pipRecord "requirements.txt" "flask" Json.null}⟩
    {pipRecord "requirements.txt" "flask" Json.null} 1 (by decide)

/-- C10: a scan that fails with NoDependenciesFoundError has already
stored the empty set in the dependencies attribute, so any later
retrieval on that instance returns the empty corpus without rescanning
and without raising. -/
theorem no_dependencies_leaves_empty_cache (root : List RootEntry)
    (st st2 : ScannerState)
    (h : scan root st = (.error .noDependenciesFound, st2)) :
    st2.dependencies = some ∅
  ∧ ∀ root2, getDependencies root2 st2 = (.ok ∅, st2, 0) := by
  have hsome : st2 = ⟨some ∅⟩ := by
    rw [scan] at h
    split at h
    · exact absurd (congrArg Prod.fst h) (by simp)
    · split at h
      · exact absurd (congrArg Prod.fst h) (by simp)
      · split at h
        · rename_i hacc
          rw [hacc] at h
          exact (congrArg Prod.snd h).symm
        · exact absurd (congrArg Prod.fst h) (by simp)
  subst hsome
  exact ⟨rfl, fun root2 => rfl⟩

/-- Witness for C10: the root whose single repository has an empty
requirements.txt fails its scan with NoDependenciesFoundError, after
which retrieval on the mutated state returns the empty corpus without
scanning. -/
theorem no_dependencies_leaves_empty_cache_witness :
    getDependencies [] ⟨some ∅⟩ = (.ok ∅, ⟨some ∅⟩, 0) :=
  (no_dependencies_leaves_empty_cache exampleRootNoDeps ⟨none⟩ ⟨some ∅⟩ (by decide)).2 []

end Sbom
